import Mathlib

/-!
SpecFlow AI (`src/src/App.jsx`): specification store and task controller

A shallow embedding of the state held by the `App` component and of its two
event handlers, `generateSpec` and `updateTaskStatus`, together with the
template functions they call.

Modelling conventions.

* A JavaScript string is the sequence of its UTF-16 code units (`JSString`);
  `length`, `slice` and `trim` of the source act on code units, so do the
  embedded ones.  String literals of the source enter through `utf16`.
* Numbers that occur (`Date.now()`, task ids) are natural numbers.
* The component state is the triple `prompt`, `activeSpec`, `specs` of the
  three `useState` cells the handlers read and write.  A handler maps the
  state of the render it was created in to the state of the next render.
* `Date.now()` is an input of `generateSpec`.
* A handler call completes either normally or by throwing; the result type
  `Except ControllerError State` records which.
-/

namespace SpecFlow

/-! ## Strings -/

/-- A JavaScript string: its UTF-16 code units. -/
abbrev JSString := List Nat

/-- UTF-16 code units of one Unicode scalar value. -/
def utf16Char (c : Char) : List Nat :=
  if c.toNat < 65536 then [c.toNat]
  else [55296 + (c.toNat - 65536) / 1024, 56320 + (c.toNat - 65536) % 1024]

/-- UTF-16 code units of a string literal. -/
def utf16 (s : String) : JSString :=
  s.toList.flatMap utf16Char

/-- Code units removed by `String.prototype.trim`: ECMAScript `WhiteSpace`
(TAB, VT, FF, ZWNBSP and the Unicode space separators) and `LineTerminator`
(LF, CR, LS, PS). -/
def isTrimmable (c : Nat) : Bool :=
  c == 9 || c == 10 || c == 11 || c == 12 || c == 13 || c == 32 || c == 160 ||
  c == 5760 || (8192 ≤ c && c ≤ 8202) || c == 8232 || c == 8233 || c == 8239 ||
  c == 8287 || c == 12288 || c == 65279

/-- Embedding of `String.prototype.trim`: strips trimmable code units from
both ends. -/
def trim (s : JSString) : JSString :=
  ((s.dropWhile isTrimmable).reverse.dropWhile isTrimmable).reverse

/-- Embedding of `s.slice(0, n)` for a non-negative `n`. -/
def slice0 (s : JSString) (n : Nat) : JSString :=
  s.take n

/-- Lines of a template literal, joined by LF. -/
def joinLines (ls : List JSString) : JSString :=
  List.intercalate [10] ls

/-! ## Data model -/

/-- One entry of a specification's `tasks` array. -/
structure Task where
  id : Nat
  title : JSString
  status : JSString
  description : JSString
deriving DecidableEq, Repr

/-- The object built by `generateSpec` (`newSpec`). -/
structure Spec where
  id : Nat
  title : JSString
  status : JSString
  requirements : JSString
  design : JSString
  tasks : List Task
deriving DecidableEq, Repr

/-- The `useState` cells read and written by the handlers; `activeSpec` is
`none` for `null`. -/
structure State where
  prompt : JSString
  activeSpec : Option Spec
  specs : List Spec
deriving DecidableEq, Repr

/-- The state of the first render: `useState('')`, `useState(null)`,
`useState([])`. -/
def initialState : State :=
  { prompt := [], activeSpec := none, specs := [] }

/-- Error taxonomy of the specification (section 7).  The source contains no
`throw` and returns no rejection value, so no handler produces any of these. -/
inductive ControllerError where
  | EmptyPrompt
  | NoActiveSpecification
  | TaskNotFound
  | InvalidTransition
deriving DecidableEq, Repr

/-- The status literal `'pending'`. -/
def pending : JSString := utf16 "pending"

/-- The status literal `'in-progress'`. -/
def inProgress : JSString := utf16 "in-progress"

/-- The status literal `'completed'`. -/
def completed : JSString := utf16 "completed"

/-! ## Template functions -/

/-- Embedding of `generateRequirements`: the template literal with the prompt
substituted at its two holes. -/
def generateRequirements (prompt : JSString) : JSString :=
  joinLines [
    utf16 "# Requirements",
    [],
    utf16 "## User Stories",
    [],
    utf16 "### Story 1: " ++ prompt,
    [],
    utf16 "**As a** developer  ",
    utf16 "**I want** to implement " ++ prompt ++ utf16 "  ",
    utf16 "**So that** users can benefit from this feature",
    [],
    utf16 "## Acceptance Criteria (EARS Notation)",
    [],
    utf16 "**WHEN** a user initiates the feature  ",
    utf16 "**THE SYSTEM SHALL** respond with appropriate feedback",
    [],
    utf16 "**WHEN** the feature is activated  ",
    utf16 "**THE SYSTEM SHALL** validate all inputs before processing",
    [],
    utf16 "**WHEN** an error occurs  ",
    utf16 "**THE SYSTEM SHALL** display a clear error message to the user",
    [],
    utf16 "**WHEN** the operation completes successfully  ",
    utf16 "**THE SYSTEM SHALL** update the UI to reflect the changes"]

/-- Embedding of `generateDesign`: a template literal without holes; the
argument is not used. -/
def generateDesign (_prompt : JSString) : JSString :=
  joinLines [
    utf16 "# Design Document",
    [],
    utf16 "## Architecture Overview",
    [],
    utf16 "This feature will be implemented using a modular architecture with clear separation of concerns.",
    [],
    utf16 "## Components",
    [],
    utf16 "### Frontend Components",
    utf16 "- **UI Layer**: React components with TypeScript",
    utf16 "- **State Management**: Context API / Redux",
    utf16 "- **API Client**: Axios for HTTP requests",
    [],
    utf16 "### Backend Services",
    utf16 "- **API Endpoints**: RESTful API design",
    utf16 "- **Business Logic**: Service layer",
    utf16 "- **Data Access**: Repository pattern",
    [],
    utf16 "## Data Flow",
    [],
    utf16 "```",
    utf16 "User Input → Validation → API Request → Business Logic → Database → Response → UI Update",
    utf16 "```",
    [],
    utf16 "## Data Models",
    [],
    utf16 "### Primary Entity",
    utf16 "```typescript",
    utf16 "interface Feature \x7b",
    utf16 "  id: string;",
    utf16 "  name: string;",
    utf16 "  status: \x27pending\x27 | \x27in-progress\x27 | \x27completed\x27;",
    utf16 "  createdAt: Date;",
    utf16 "  updatedAt: Date;",
    utf16 "\x7d",
    utf16 "```",
    [],
    utf16 "## API Specifications",
    [],
    utf16 "### Endpoints",
    [],
    utf16 "**POST /api/features**",
    utf16 "- Creates a new feature",
    utf16 "- Request body: `\x7b name: string, description: string \x7d`",
    utf16 "- Response: `\x7b id: string, ...Feature \x7d`",
    [],
    utf16 "**GET /api/features/:id**",
    utf16 "- Retrieves feature details",
    utf16 "- Response: `Feature`",
    [],
    utf16 "## Error Handling",
    [],
    utf16 "- Input validation errors: 400 Bad Request",
    utf16 "- Authentication errors: 401 Unauthorized",
    utf16 "- Resource not found: 404 Not Found",
    utf16 "- Server errors: 500 Internal Server Error",
    [],
    utf16 "## Security Considerations",
    [],
    utf16 "- Input sanitization",
    utf16 "- Authentication and authorization",
    utf16 "- Rate limiting",
    utf16 "- CORS configuration",
    [],
    utf16 "## Performance Requirements",
    [],
    utf16 "- API response time: < 200ms",
    utf16 "- Database query optimization",
    utf16 "- Caching strategy for frequently accessed data"]

/-- Embedding of `generateTasks`: the seven-element array literal; the
argument is not used. -/
def generateTasks (_prompt : JSString) : List Task :=
  [ { id := 1, title := utf16 "Set up project structure", status := utf16 "pending",
      description := utf16 "Initialize repository and configure build tools" },
    { id := 2, title := utf16 "Implement data models", status := utf16 "pending",
      description := utf16 "Create TypeScript interfaces and database schemas" },
    { id := 3, title := utf16 "Build API endpoints", status := utf16 "pending",
      description := utf16 "Develop RESTful API with validation" },
    { id := 4, title := utf16 "Create UI components", status := utf16 "pending",
      description := utf16 "Build React components with proper state management" },
    { id := 5, title := utf16 "Write unit tests", status := utf16 "pending",
      description := utf16 "Achieve 80%+ code coverage" },
    { id := 6, title := utf16 "Integration testing", status := utf16 "pending",
      description := utf16 "Test end-to-end workflows" },
    { id := 7, title := utf16 "Documentation", status := utf16 "pending",
      description := utf16 "Write API docs and user guides" } ]

/-! ## Handlers -/

/-- Embedding of `generateSpec` (lines 37-52).  `now` is the value returned by
`Date.now()`.  The guard `if (!prompt.trim()) return` leaves all three cells
as they are; otherwise `newSpec` is appended to `specs`, becomes `activeSpec`,
and `prompt` is reset to the empty string. -/
def generateSpec (now : Nat) (st : State) : Except ControllerError State :=
  if (trim st.prompt).isEmpty then
    .ok st
  else
    let newSpec : Spec :=
      { id := now
        title := slice0 st.prompt 50
        status := utf16 "in-progress"
        requirements := generateRequirements st.prompt
        design := generateDesign st.prompt
        tasks := generateTasks st.prompt }
    .ok { prompt := [], activeSpec := some newSpec, specs := st.specs ++ [newSpec] }

/-- Embedding of `updateTaskStatus` (lines 164-174).  The guard
`if (!activeSpec) return` leaves the state as it is; otherwise the tasks of
the active specification are mapped, the result becomes `activeSpec`, and
every member of `specs` whose `id` equals the active one is replaced by it. -/
def updateTaskStatus (taskId : Nat) (newStatus : JSString) (st : State) :
    Except ControllerError State :=
  match st.activeSpec with
  | none => .ok st
  | some activeSpec =>
    let updatedTasks := activeSpec.tasks.map fun task =>
      if task.id = taskId then { task with status := newStatus } else task
    let updatedSpec : Spec := { activeSpec with tasks := updatedTasks }
    .ok { st with
          activeSpec := some updatedSpec
          specs := st.specs.map fun s => if s.id = activeSpec.id then updatedSpec else s }

/-- Embedding of the `onChange` handler of the textarea, `setPrompt(e.target.value)`. -/
def setPrompt (value : JSString) (st : State) : State :=
  { st with prompt := value }

/-- Embedding of `setActiveSpec`, called with a member of `specs` by a click on
its card (line 232) and with `null` by the "New Spec" button (line 353). -/
def setActiveSpec (value : Option Spec) (st : State) : State :=
  { st with activeSpec := value }

/-- The `updateTaskStatus` calls offered by the card of one task of the active
specification (lines 423-447): "Start" on a pending task, "Complete" on a task
in progress, and no button otherwise. -/
def taskButtons (task : Task) : List (Nat × JSString) :=
  (if task.status = utf16 "pending" then [(task.id, utf16 "in-progress")] else []) ++
  (if task.status = utf16 "in-progress" then [(task.id, utf16 "completed")] else [])

/-- The operation `createFromPrompt(promptText)` of the specification: the
prompt is entered, then "Generate Specification" is clicked. -/
def createFromPrompt (now : Nat) (promptText : JSString) (st : State) :
    Except ControllerError State :=
  generateSpec now (setPrompt promptText st)

/-- States reachable from the first render by the handlers of the component. -/
inductive Reachable : State → Prop where
  | init : Reachable initialState
  | typed {st : State} (value : JSString) :
      Reachable st → Reachable (setPrompt value st)
  | generated {st st1 : State} (now : Nat) :
      Reachable st → generateSpec now st = .ok st1 → Reachable st1
  | selected {st : State} (s : Spec) :
      Reachable st → s ∈ st.specs → Reachable (setActiveSpec (some s) st)
  | deselected {st : State} :
      Reachable st → Reachable (setActiveSpec none st)
  | advanced {st st1 : State} (taskId : Nat) (newStatus : JSString) :
      Reachable st → updateTaskStatus taskId newStatus st = .ok st1 → Reachable st1

/-- The ordering of the specification, `pending → in-progress → completed`:
`s1` is the immediate successor of `s`. -/
def isSuccessor (s s1 : JSString) : Prop :=
  (s = pending ∧ s1 = inProgress) ∨ (s = inProgress ∧ s1 = completed)

instance (s s1 : JSString) : Decidable (isSuccessor s s1) := by
  unfold isSuccessor; infer_instance

/-- Consistency of a state: the active specification, if any, is a member of
`specs`, and every stored specification carries the task ids `1..7` in order. -/
def Consistent (st : State) : Prop :=
  (∀ a, st.activeSpec = some a → a ∈ st.specs) ∧
  (∀ s ∈ st.specs, s.tasks.map Task.id = [1, 2, 3, 4, 5, 6, 7])

/-- The specification `updateTaskStatus` builds from the active one
(`updatedSpec`). -/
def updatedSpecOf (taskId : Nat) (newStatus : JSString) (a : Spec) : Spec :=
  { a with tasks := a.tasks.map fun task =>
      if task.id = taskId then { task with status := newStatus } else task }

/-! ## Sample data -/

/-- The prompt of the end-to-end scenario, `"Build login page"`. -/
def loginPrompt : JSString := utf16 "Build login page"

/-- The specification `generateSpec` builds from `loginPrompt` at clock reading
`1700000000000`. -/
def loginSpec : Spec :=
  { id := 1700000000000
    title := slice0 loginPrompt 50
    status := utf16 "in-progress"
    requirements := generateRequirements loginPrompt
    design := generateDesign loginPrompt
    tasks := generateTasks loginPrompt }

/-- The state after that creation: `loginSpec` stored and active. -/
def loginState : State :=
  { prompt := [], activeSpec := some loginSpec, specs := [loginSpec] }

/-- A second prompt, `"Add search"`. -/
def searchPrompt : JSString := utf16 "Add search"

/-- The specification `generateSpec` builds from `searchPrompt` when `Date.now()`
returns `1700000000000` again. -/
def searchSpec : Spec :=
  { id := 1700000000000
    title := slice0 searchPrompt 50
    status := utf16 "in-progress"
    requirements := generateRequirements searchPrompt
    design := generateDesign searchPrompt
    tasks := generateTasks searchPrompt }

/-- The state after creating `loginSpec`, clicking "New Spec" and creating
`searchSpec` at the same clock reading. -/
def clashState : State :=
  { prompt := [], activeSpec := some searchSpec, specs := [loginSpec, searchSpec] }

/-- The specification `generateSpec` builds from `searchPrompt` one millisecond
after `loginSpec`. -/
def laterSpec : Spec :=
  { id := 1700000000001
    title := slice0 searchPrompt 50
    status := utf16 "in-progress"
    requirements := generateRequirements searchPrompt
    design := generateDesign searchPrompt
    tasks := generateTasks searchPrompt }

/-- The state after creating `loginSpec`, clicking "New Spec" and creating
`laterSpec`. -/
def twoSpecState : State :=
  { prompt := [], activeSpec := some laterSpec, specs := [loginSpec, laterSpec] }

/-- A prompt of 52 code units: a space, fifty times `a`, and `b`. -/
def paddedPrompt : JSString := utf16 " " ++ List.replicate 50 97 ++ utf16 "b"

/-- The first task produced by `generateTasks`. -/
def firstTask : Task :=
  { id := 1, title := utf16 "Set up project structure", status := utf16 "pending",
    description := utf16 "Initialize repository and configure build tools" }

/-! ## Auxiliary lemmas -/

theorem trim_eq_nil_iff (s : JSString) :
    trim s = [] ↔ ∀ c ∈ s, isTrimmable c = true := by
  unfold trim
  rw [List.reverse_eq_nil_iff, List.dropWhile_eq_nil_iff]
  constructor
  · intro h
    have hnil : s.dropWhile isTrimmable = [] := by
      cases hd : s.dropWhile isTrimmable with
      | nil => rfl
      | cons x xs =>
        have hx : isTrimmable x = true := h x (by rw [hd]; simp)
        have hhead := List.head_dropWhile_not isTrimmable s (by rw [hd]; simp)
        simp only [hd, List.head_cons] at hhead
        rw [hx] at hhead
        exact absurd hhead (by simp)
    exact List.dropWhile_eq_nil_iff.mp hnil
  · intro h x hx
    have hnil : s.dropWhile isTrimmable = [] := List.dropWhile_eq_nil_iff.mpr h
    rw [hnil] at hx
    simp at hx

theorem generateSpec_blank (now : Nat) (st : State)
    (h : ∀ c ∈ st.prompt, isTrimmable c = true) : generateSpec now st = .ok st := by
  have hnil : trim st.prompt = [] := (trim_eq_nil_iff st.prompt).mpr h
  simp [generateSpec, hnil]

theorem generateSpec_nonblank (now : Nat) (st : State) (h : trim st.prompt ≠ []) :
    generateSpec now st =
      .ok { prompt := []
            activeSpec := some
              { id := now, title := slice0 st.prompt 50, status := utf16 "in-progress",
                requirements := generateRequirements st.prompt,
                design := generateDesign st.prompt, tasks := generateTasks st.prompt }
            specs := st.specs ++
              [{ id := now, title := slice0 st.prompt 50, status := utf16 "in-progress",
                 requirements := generateRequirements st.prompt,
                 design := generateDesign st.prompt, tasks := generateTasks st.prompt }] } := by
  have hne : (trim st.prompt).isEmpty = false := by
    cases ht : trim st.prompt with
    | nil => exact absurd ht h
    | cons x xs => rfl
  simp [generateSpec, hne]

theorem updateTaskStatus_active (taskId : Nat) (newStatus : JSString) (st : State) (a : Spec)
    (h : st.activeSpec = some a) :
    updateTaskStatus taskId newStatus st =
      .ok { st with
            activeSpec := some (updatedSpecOf taskId newStatus a)
            specs := st.specs.map fun s =>
              if s.id = a.id then updatedSpecOf taskId newStatus a else s } := by
  simp only [updateTaskStatus, h, updatedSpecOf]

theorem updateTaskStatus_inactive (taskId : Nat) (newStatus : JSString) (st : State)
    (h : st.activeSpec = none) : updateTaskStatus taskId newStatus st = .ok st := by
  simp only [updateTaskStatus, h]

/-! ## C1: frame of a task-status update -/

theorem getElem?_map_update (tasks : List Task) (taskId : Nat) (target : JSString)
    (i : Nat) (u : Task) (h : tasks[i]? = some u) :
    (tasks.map fun task => if task.id = taskId then { task with status := target } else task)[i]? =
      some (if u.id = taskId then { u with status := target } else u) := by
  simp [List.getElem?_map, h]

/-- C1: in a state with an active specification, `updateTaskStatus` with target
`'in-progress'` on a pending task of it, or with target `'completed'` on a task in
progress, completes normally and yields an active specification whose tasks have the
same length and order: position by position the id, title and description are kept,
a task with the targeted id carries the target status, every task with another id is
unchanged, the targeted task itself reappears at its position with only the status
replaced, and the id, title, status, requirements and design of the specification
are unchanged. -/
theorem updateTaskStatus_frame (st : State) (a : Spec) (t : Task) (taskId : Nat)
    (target : JSString) (hactive : st.activeSpec = some a) (hmem : t ∈ a.tasks)
    (hid : t.id = taskId)
    (hstep : (t.status = pending ∧ target = inProgress) ∨
      (t.status = inProgress ∧ target = completed)) :
    ∃ st1 a1, updateTaskStatus taskId target st = .ok st1 ∧ st1.activeSpec = some a1 ∧
      a1.tasks.length = a.tasks.length ∧
      (∀ (i : Nat) (u : Task), a.tasks[i]? = some u → ∃ u1, a1.tasks[i]? = some u1 ∧
        u1.id = u.id ∧ u1.title = u.title ∧ u1.description = u.description ∧
        (u.id = taskId → u1.status = target) ∧ (u.id ≠ taskId → u1 = u)) ∧
      (∃ i : Nat, a.tasks[i]? = some t ∧ a1.tasks[i]? = some { t with status := target }) ∧
      a1.id = a.id ∧ a1.title = a.title ∧ a1.status = a.status ∧
      a1.requirements = a.requirements ∧ a1.design = a.design := by
  have _ := hstep
  refine ⟨_, _, updateTaskStatus_active taskId target st a hactive, rfl,
    by simp [updatedSpecOf], ?_, ?_, rfl, rfl, rfl, rfl, rfl⟩
  · intro i u hu
    refine ⟨_, getElem?_map_update a.tasks taskId target i u hu, ?_⟩
    by_cases hc : u.id = taskId
    · simp [hc]
    · simp [hc]
  · obtain ⟨i, hi⟩ := List.mem_iff_getElem?.mp hmem
    refine ⟨i, hi, ?_⟩
    show (a.tasks.map _)[i]? = _
    rw [getElem?_map_update a.tasks taskId target i t hi, if_pos hid]

/-- Witness for C1: "Start" on the first task of the sample specification. -/
theorem updateTaskStatus_frame_witness :
    ∃ st1 a1, updateTaskStatus 1 inProgress loginState = .ok st1 ∧
      st1.activeSpec = some a1 ∧
      a1.tasks.length = loginSpec.tasks.length ∧
      (∀ (i : Nat) (u : Task), loginSpec.tasks[i]? = some u → ∃ u1, a1.tasks[i]? = some u1 ∧
        u1.id = u.id ∧ u1.title = u.title ∧ u1.description = u.description ∧
        (u.id = 1 → u1.status = inProgress) ∧ (u.id ≠ 1 → u1 = u)) ∧
      (∃ i : Nat, loginSpec.tasks[i]? = some firstTask ∧
        a1.tasks[i]? = some { firstTask with status := inProgress }) ∧
      a1.id = loginSpec.id ∧ a1.title = loginSpec.title ∧ a1.status = loginSpec.status ∧
      a1.requirements = loginSpec.requirements ∧ a1.design = loginSpec.design :=
  updateTaskStatus_frame loginState loginSpec firstTask 1 inProgress rfl
    (List.Mem.head _) rfl (Or.inl ⟨rfl, rfl⟩)

/-! ## C2 and C6: creation from a prompt -/

/-- C2: for every state, whatever is active, and every prompt that is non-empty
after trimming, `createFromPrompt` completes normally with a state whose `specs` is
the old `specs` with exactly one specification appended at the end (the length grows
by one, every earlier member stays at its position) and whose `activeSpec` is that
new specification. -/
theorem createFromPrompt_appends (now : Nat) (promptText : JSString) (st : State)
    (hprompt : trim promptText ≠ []) :
    ∃ st1 newSpec, createFromPrompt now promptText st = .ok st1 ∧
      st1.specs = st.specs ++ [newSpec] ∧
      st1.specs.length = st.specs.length + 1 ∧
      (∀ (i : Nat) (s : Spec), st.specs[i]? = some s → st1.specs[i]? = some s) ∧
      st1.specs[st.specs.length]? = some newSpec ∧
      st1.activeSpec = some newSpec := by
  have h : trim (setPrompt promptText st).prompt ≠ [] := hprompt
  refine ⟨_, _, generateSpec_nonblank now (setPrompt promptText st) h, rfl,
    by simp [setPrompt], ?_, by simp [setPrompt], rfl⟩
  intro i s hs
  have hlt : i < st.specs.length := (List.getElem?_eq_some_iff.mp hs).1
  show (st.specs ++ [_])[i]? = some s
  rw [List.getElem?_append_left hlt]
  exact hs

/-- Witness for C2: a second creation while the sample specification is active. -/
theorem createFromPrompt_appends_witness :
    trim (utf16 " Add search ") ≠ [] ∧
    ∃ st1 newSpec, createFromPrompt 1700000000001 (utf16 " Add search ") loginState = .ok st1 ∧
      st1.specs = loginState.specs ++ [newSpec] ∧
      st1.specs.length = loginState.specs.length + 1 ∧
      (∀ (i : Nat) (s : Spec), loginState.specs[i]? = some s → st1.specs[i]? = some s) ∧
      st1.specs[loginState.specs.length]? = some newSpec ∧
      st1.activeSpec = some newSpec :=
  ⟨by decide, createFromPrompt_appends 1700000000001 (utf16 " Add search ") loginState
    (by decide)⟩

/-- C6: for every state and every prompt that is empty or consists only of
whitespace, `createFromPrompt` completes normally (no error is raised) and the
resulting `specs` and `activeSpec` are those before the call; `generateSpec` itself
returns the state it was called in. -/
theorem createFromPrompt_blank_noop (now : Nat) (promptText : JSString) (st : State)
    (hblank : ∀ c ∈ promptText, isTrimmable c = true) :
    ∃ st1, createFromPrompt now promptText st = .ok st1 ∧
      st1.specs = st.specs ∧ st1.activeSpec = st.activeSpec ∧
      generateSpec now (setPrompt promptText st) = .ok (setPrompt promptText st) :=
  ⟨_, generateSpec_blank now (setPrompt promptText st) hblank, rfl, rfl,
    generateSpec_blank now (setPrompt promptText st) hblank⟩

/-- Witness for C6: the prompt of three spaces, with the sample specification
active. -/
theorem createFromPrompt_blank_noop_witness :
    (∀ c ∈ utf16 "   ", isTrimmable c = true) ∧
    ∃ st1, createFromPrompt 1700000000001 (utf16 "   ") loginState = .ok st1 ∧
      st1.specs = loginState.specs ∧ st1.activeSpec = loginState.activeSpec ∧
      generateSpec 1700000000001 (setPrompt (utf16 "   ") loginState) =
        .ok (setPrompt (utf16 "   ") loginState) :=
  ⟨by decide, createFromPrompt_blank_noop 1700000000001 (utf16 "   ") loginState (by decide)⟩

/-! ## Reachable states are consistent -/

theorem updatedSpecOf_ids (taskId : Nat) (newStatus : JSString) (a : Spec) :
    (updatedSpecOf taskId newStatus a).tasks.map Task.id = a.tasks.map Task.id := by
  simp only [updatedSpecOf, List.map_map]
  apply List.map_congr_left
  intro t _
  by_cases h : t.id = taskId <;> simp [h]

theorem generateSpec_cases (now : Nat) (st st1 : State) (h : generateSpec now st = .ok st1) :
    st1 = st ∨ (trim st.prompt ≠ [] ∧ ∃ newSpec : Spec,
      newSpec.tasks = generateTasks st.prompt ∧ newSpec.id = now ∧
      st1.activeSpec = some newSpec ∧ st1.specs = st.specs ++ [newSpec]) := by
  by_cases hb : trim st.prompt = []
  · left
    rw [generateSpec_blank now st ((trim_eq_nil_iff st.prompt).mp hb)] at h
    exact (Except.ok.inj h).symm
  · right
    rw [generateSpec_nonblank now st hb] at h
    have h1 := Except.ok.inj h
    subst h1
    exact ⟨hb, _, rfl, rfl, rfl, rfl⟩

theorem consistent_generateSpec (now : Nat) (st st1 : State) (hc : Consistent st)
    (h : generateSpec now st = .ok st1) : Consistent st1 := by
  rcases generateSpec_cases now st st1 h with h1 | ⟨_, newSpec, htasks, _, hact, hspecs⟩
  · rw [h1]; exact hc
  · refine ⟨?_, ?_⟩
    · intro a ha
      rw [hact] at ha
      rw [hspecs, ← Option.some.inj ha]
      simp
    · intro s hs
      rw [hspecs, List.mem_append, List.mem_singleton] at hs
      rcases hs with hs | hs
      · exact hc.2 s hs
      · rw [hs, htasks]; rfl

theorem consistent_updateTaskStatus (taskId : Nat) (newStatus : JSString) (st st1 : State)
    (hc : Consistent st) (h : updateTaskStatus taskId newStatus st = .ok st1) :
    Consistent st1 := by
  cases hact : st.activeSpec with
  | none =>
    rw [updateTaskStatus_inactive taskId newStatus st hact] at h
    rw [← Except.ok.inj h]; exact hc
  | some a =>
    rw [updateTaskStatus_active taskId newStatus st a hact] at h
    have h1 := Except.ok.inj h
    subst h1
    have hmem : a ∈ st.specs := hc.1 a hact
    refine ⟨?_, ?_⟩
    · intro b hb
      have hb1 : updatedSpecOf taskId newStatus a = b := Option.some.inj hb
      subst hb1
      exact List.mem_map.mpr ⟨a, hmem, by simp⟩
    · intro s hs
      obtain ⟨s0, hs0, hs1⟩ := List.mem_map.mp hs
      by_cases hid : s0.id = a.id
      · rw [if_pos hid] at hs1
        rw [← hs1, updatedSpecOf_ids]
        exact hc.2 a hmem
      · rw [if_neg hid] at hs1
        rw [← hs1]; exact hc.2 s0 hs0

theorem reachable_consistent (st : State) (h : Reachable st) : Consistent st := by
  induction h with
  | init => exact ⟨fun a ha => by simp [initialState] at ha, fun s hs => by simp [initialState] at hs⟩
  | typed value _ ih => exact ih
  | generated now _ hgen ih => exact consistent_generateSpec now _ _ ih hgen
  | selected s _ hs ih =>
    refine ⟨?_, ih.2⟩
    intro a ha
    have : s = a := Option.some.inj ha
    rw [← this]; exact hs
  | deselected _ ih =>
    exact ⟨fun a ha => by simp [setActiveSpec] at ha, ih.2⟩
  | advanced taskId newStatus _ hadv ih =>
    exact consistent_updateTaskStatus taskId newStatus _ _ ih hadv

theorem loginState_reachable : Reachable loginState :=
  Reachable.generated 1700000000000 (Reachable.typed loginPrompt Reachable.init) rfl

/-! ## C3: ordering of task statuses -/

theorem taskButtons_cases (t : Task) (taskId : Nat) (target : JSString)
    (h : (taskId, target) ∈ taskButtons t) :
    taskId = t.id ∧ isSuccessor t.status target := by
  unfold taskButtons at h
  rw [List.mem_append] at h
  rcases h with h | h
  · by_cases hs : t.status = utf16 "pending"
    · rw [if_pos hs, List.mem_singleton] at h
      have h1 := (Prod.mk.inj h).1
      have h2 := (Prod.mk.inj h).2
      exact ⟨h1, Or.inl ⟨hs, h2⟩⟩
    · rw [if_neg hs] at h
      simp at h
  · by_cases hs : t.status = utf16 "in-progress"
    · rw [if_pos hs, List.mem_singleton] at h
      have h1 := (Prod.mk.inj h).1
      have h2 := (Prod.mk.inj h).2
      exact ⟨h1, Or.inr ⟨hs, h2⟩⟩
    · rw [if_neg hs] at h
      simp at h

theorem consistent_task_ids_inj (st : State) (hc : Consistent st) (a : Spec)
    (hactive : st.activeSpec = some a) (u t : Task) (hu : u ∈ a.tasks) (ht : t ∈ a.tasks)
    (hid : u.id = t.id) : u = t := by
  have hids := hc.2 a (hc.1 a hactive)
  have hnd : (a.tasks.map Task.id).Nodup := by rw [hids]; decide
  exact List.inj_on_of_nodup_map hnd hu ht hid

/-- Counterexample to C3: on the sample state, `updateTaskStatus(1, 'completed')`
takes the pending first task directly to `'completed'`, which is not the successor of
`'pending'`, and `updateTaskStatus(1, 'pending')` then takes it back to `'pending'`. -/
theorem updateTaskStatus_skips_and_reverses :
    ∃ st1 a1 st2 a2,
      (loginSpec.tasks.map Task.status)[0]? = some pending ∧
      updateTaskStatus 1 completed loginState = .ok st1 ∧ st1.activeSpec = some a1 ∧
      (a1.tasks.map Task.status)[0]? = some completed ∧
      ¬ isSuccessor pending completed ∧
      updateTaskStatus 1 pending st1 = .ok st2 ∧ st2.activeSpec = some a2 ∧
      (a2.tasks.map Task.status)[0]? = some pending ∧
      ¬ isSuccessor completed pending :=
  ⟨_, _, _, _, rfl, rfl, rfl, rfl, by decide, rfl, rfl, rfl, by decide⟩

/-- C3 (amended): the ordering `pending → in-progress → completed` holds for the
calls issued by the task cards, not for `updateTaskStatus` itself.  In every reachable
state with an active specification, a button rendered for one of its tasks is "Start"
on a pending task or "Complete" on a task in progress, its call targets that task's
id with the immediate successor of its status, and the call moves exactly that task
to the successor and leaves every other task of the active specification unchanged;
`updateTaskStatus` itself gives the task whatever status the caller supplies. -/
theorem button_click_advances (st : State) (a : Spec) (t : Task) (taskId : Nat)
    (target : JSString) (hreach : Reachable st) (hactive : st.activeSpec = some a)
    (ht : t ∈ a.tasks) (hbtn : (taskId, target) ∈ taskButtons t) :
    taskId = t.id ∧ isSuccessor t.status target ∧
    (∃ st1 a1, updateTaskStatus taskId target st = .ok st1 ∧ st1.activeSpec = some a1 ∧
      a1.tasks.length = a.tasks.length ∧
      ∀ (i : Nat) (u : Task), a.tasks[i]? = some u → ∃ u1, a1.tasks[i]? = some u1 ∧
        (u = t → isSuccessor u.status u1.status) ∧ (u ≠ t → u1 = u)) ∧
    (∀ anyStatus : JSString, ∃ st2 a2,
      updateTaskStatus t.id anyStatus st = .ok st2 ∧ st2.activeSpec = some a2 ∧
      ∃ i : Nat, a.tasks[i]? = some t ∧
        a2.tasks[i]? = some { t with status := anyStatus }) := by
  obtain ⟨hid, hsucc⟩ := taskButtons_cases t taskId target hbtn
  have hc := reachable_consistent st hreach
  refine ⟨hid, hsucc, ?_, ?_⟩
  · refine ⟨_, _, updateTaskStatus_active taskId target st a hactive, rfl,
      by simp [updatedSpecOf], ?_⟩
    intro i u hu
    refine ⟨_, getElem?_map_update a.tasks taskId target i u hu, ?_, ?_⟩
    · intro hut
      have hx : u.id = taskId := by rw [hut, hid]
      rw [if_pos hx, hut]
      exact hsucc
    · intro hut
      have hx : ¬ u.id = taskId := by
        intro hx
        exact hut (consistent_task_ids_inj st hc a hactive u t
          (List.mem_iff_getElem?.mpr ⟨i, hu⟩) ht (hx.trans hid))
      rw [if_neg hx]
  · intro anyStatus
    obtain ⟨i, hi⟩ := List.mem_iff_getElem?.mp ht
    refine ⟨_, _, updateTaskStatus_active t.id anyStatus st a hactive, rfl, i, hi, ?_⟩
    show (a.tasks.map _)[i]? = _
    rw [getElem?_map_update a.tasks t.id anyStatus i t hi, if_pos rfl]

/-- Witness for C3 (amended): "Start" on the first task of the sample state. -/
theorem button_click_advances_witness :
    (1, inProgress) ∈ taskButtons firstTask ∧
    (1 = firstTask.id ∧ isSuccessor firstTask.status inProgress ∧
    (∃ st1 a1, updateTaskStatus 1 inProgress loginState = .ok st1 ∧
      st1.activeSpec = some a1 ∧ a1.tasks.length = loginSpec.tasks.length ∧
      ∀ (i : Nat) (u : Task), loginSpec.tasks[i]? = some u → ∃ u1, a1.tasks[i]? = some u1 ∧
        (u = firstTask → isSuccessor u.status u1.status) ∧ (u ≠ firstTask → u1 = u)) ∧
    (∀ anyStatus : JSString, ∃ st2 a2,
      updateTaskStatus firstTask.id anyStatus loginState = .ok st2 ∧
      st2.activeSpec = some a2 ∧
      ∃ i : Nat, loginSpec.tasks[i]? = some firstTask ∧
        a2.tasks[i]? = some { firstTask with status := anyStatus })) :=
  ⟨by decide, button_click_advances loginState loginSpec firstTask 1 inProgress
    loginState_reachable rfl (List.Mem.head _) (by decide)⟩

/-! ## C4 and C5: calls that the specification rejects -/

theorem map_update_absent (tasks : List Task) (taskId : Nat) (target : JSString)
    (h : ∀ t ∈ tasks, t.id ≠ taskId) :
    (tasks.map fun task => if task.id = taskId then { task with status := target } else task) =
      tasks := by
  induction tasks with
  | nil => rfl
  | cons x xs ih =>
    have hx : ¬ x.id = taskId := h x (List.mem_cons_self x xs)
    have hxs : ∀ t ∈ xs, t.id ≠ taskId := fun t ht => h t (List.mem_cons_of_mem x ht)
    simp only [List.map_cons, if_neg hx, ih hxs]

theorem map_replace_same (specs : List Spec) (a : Spec)
    (h : ∀ s ∈ specs, s.id = a.id → s = a) :
    (specs.map fun s => if s.id = a.id then a else s) = specs := by
  induction specs with
  | nil => rfl
  | cons x xs ih =>
    have hxs : ∀ s ∈ xs, s.id = a.id → s = a := fun s hs => h s (List.mem_cons_of_mem x hs)
    by_cases hx : x.id = a.id
    · have hxa : x = a := h x (List.mem_cons_self x xs) hx
      rw [List.map_cons, if_pos hx, ih hxs, hxa]
    · simp only [List.map_cons, if_neg hx, ih hxs]

/-- Counterexample to C4: on the sample state, whose active specification has no task
with id `99`, `updateTaskStatus(99, 'in-progress')` does not fail with `TaskNotFound`;
it completes normally. -/
theorem unknown_task_not_rejected :
    loginState.activeSpec = some loginSpec ∧ (∀ t ∈ loginSpec.tasks, t.id ≠ 99) ∧
    updateTaskStatus 99 inProgress loginState ≠ .error .TaskNotFound ∧
    updateTaskStatus 99 inProgress loginState = .ok loginState := by
  have h : updateTaskStatus 99 inProgress loginState = .ok loginState := rfl
  refine ⟨rfl, by decide, ?_, h⟩
  rw [h]
  exact fun hne => Except.noConfusion hne

/-- C4 (amended): for every state with an active specification and every task id that
does not occur in its tasks, `updateTaskStatus` raises no error: it completes normally,
`prompt` and `activeSpec` are unchanged, `specs` is the old `specs` with every member
that carries the active id replaced by the active specification, and so the whole
state is unchanged whenever every member of `specs` with the active id equals the
active specification. -/
theorem updateTaskStatus_unknown_task (st : State) (a : Spec) (taskId : Nat)
    (target : JSString) (hactive : st.activeSpec = some a)
    (habsent : ∀ t ∈ a.tasks, t.id ≠ taskId) :
    ∃ st1, updateTaskStatus taskId target st = .ok st1 ∧
      st1.prompt = st.prompt ∧ st1.activeSpec = st.activeSpec ∧
      st1.specs = st.specs.map (fun s => if s.id = a.id then a else s) ∧
      ((∀ s ∈ st.specs, s.id = a.id → s = a) → st1 = st) := by
  have hupd : updatedSpecOf taskId target a = a := by
    unfold updatedSpecOf
    rw [map_update_absent a.tasks taskId target habsent]
  refine ⟨_, updateTaskStatus_active taskId target st a hactive, rfl, ?_, ?_, ?_⟩
  · show some (updatedSpecOf taskId target a) = st.activeSpec
    rw [hupd, hactive]
  · show st.specs.map _ = st.specs.map _
    rw [hupd]
  · intro huniq
    rw [hupd, map_replace_same st.specs a huniq, ← hactive]

/-- Witness for C4 (amended): task id `99` on the sample state. -/
theorem updateTaskStatus_unknown_task_witness :
    loginState.activeSpec = some loginSpec ∧ (∀ t ∈ loginSpec.tasks, t.id ≠ 99) ∧
    ∃ st1, updateTaskStatus 99 inProgress loginState = .ok st1 ∧
      st1.prompt = loginState.prompt ∧ st1.activeSpec = loginState.activeSpec ∧
      st1.specs = loginState.specs.map (fun s => if s.id = loginSpec.id then loginSpec else s) ∧
      ((∀ s ∈ loginState.specs, s.id = loginSpec.id → s = loginSpec) → st1 = loginState) :=
  ⟨rfl, by decide,
    updateTaskStatus_unknown_task loginState loginSpec 99 inProgress rfl (by decide)⟩

/-- Counterexample to C5: in the initial state, where nothing is active,
`updateTaskStatus(1, 'in-progress')` does not fail with `NoActiveSpecification`; it
completes normally and returns the state it was called in. -/
theorem inactive_call_not_rejected :
    initialState.activeSpec = none ∧
    updateTaskStatus 1 inProgress initialState ≠ .error .NoActiveSpecification ∧
    updateTaskStatus 1 inProgress initialState = .ok initialState := by
  have h : updateTaskStatus 1 inProgress initialState = .ok initialState := rfl
  refine ⟨rfl, ?_, h⟩
  rw [h]
  exact fun hne => Except.noConfusion hne

/-- C5 (amended): for every state with no active specification and every task id and
target status, `updateTaskStatus` raises no error and reports nothing to the caller:
the guard returns at once, the call completes normally and the state is unchanged. -/
theorem updateTaskStatus_inactive_noop (st : State) (taskId : Nat) (target : JSString)
    (hnone : st.activeSpec = none) :
    updateTaskStatus taskId target st = .ok st ∧
    ∀ e : ControllerError, updateTaskStatus taskId target st ≠ .error e := by
  have h := updateTaskStatus_inactive taskId target st hnone
  refine ⟨h, ?_⟩
  intro e
  rw [h]
  exact fun hne => Except.noConfusion hne

/-- Witness for C5 (amended): the initial state. -/
theorem updateTaskStatus_inactive_noop_witness :
    initialState.activeSpec = none ∧
    updateTaskStatus 7 completed initialState = .ok initialState ∧
    ∀ e : ControllerError, updateTaskStatus 7 completed initialState ≠ .error e :=
  ⟨rfl, updateTaskStatus_inactive_noop initialState 7 completed rfl⟩

/-! ## C7 and C8: the collection and the active snapshot -/

theorem clashState_reachable : Reachable clashState :=
  Reachable.generated 1700000000000
    (Reachable.typed searchPrompt (Reachable.deselected loginState_reachable)) rfl

theorem loginSpec_ne_searchSpec : loginSpec ≠ searchSpec :=
  fun h => absurd (congrArg Spec.title h) (by decide)

/-- C7: in every state reachable from the initial one by typing, creation, selection
of a member of `specs`, deselection and task updates, `activeSpec` is either `null` or
a member of `specs`; and after any `updateTaskStatus` call from such a state the new
active specification is a member of the new `specs` and every member of the new
`specs` with its id is equal to it. -/
theorem reachable_active_in_specs (st : State) (hreach : Reachable st) :
    (st.activeSpec = none ∨ ∃ a, st.activeSpec = some a ∧ a ∈ st.specs) ∧
    (∀ (taskId : Nat) (target : JSString) (st1 : State) (a1 : Spec),
      updateTaskStatus taskId target st = .ok st1 → st1.activeSpec = some a1 →
      a1 ∈ st1.specs ∧ ∀ s ∈ st1.specs, s.id = a1.id → s = a1) := by
  have hc := reachable_consistent st hreach
  refine ⟨?_, ?_⟩
  · cases hact : st.activeSpec with
    | none => exact Or.inl rfl
    | some a => exact Or.inr ⟨a, rfl, hc.1 a hact⟩
  · intro taskId target st1 a1 hupd hact1
    have hc1 := consistent_updateTaskStatus taskId target st st1 hc hupd
    refine ⟨hc1.1 a1 hact1, ?_⟩
    intro s hs hid
    cases hact : st.activeSpec with
    | none =>
      rw [updateTaskStatus_inactive taskId target st hact] at hupd
      rw [← Except.ok.inj hupd, hact] at hact1
      exact absurd hact1 (by simp)
    | some a =>
      rw [updateTaskStatus_active taskId target st a hact] at hupd
      have h1 := Except.ok.inj hupd
      subst h1
      have ha1 : updatedSpecOf taskId target a = a1 := Option.some.inj hact1
      obtain ⟨s0, _, hs1⟩ := List.mem_map.mp hs
      by_cases h0 : s0.id = a.id
      · rw [if_pos h0] at hs1
        rw [← hs1, ha1]
      · rw [if_neg h0] at hs1
        rw [← hs1, ← ha1] at hid
        exact absurd hid h0

/-- Witness for C7: the state with two stored specifications of equal id. -/
theorem reachable_active_in_specs_witness :
    Reachable clashState ∧
    (clashState.activeSpec = none ∨
      ∃ a, clashState.activeSpec = some a ∧ a ∈ clashState.specs) ∧
    (∀ (taskId : Nat) (target : JSString) (st1 : State) (a1 : Spec),
      updateTaskStatus taskId target clashState = .ok st1 → st1.activeSpec = some a1 →
      a1 ∈ st1.specs ∧ ∀ s ∈ st1.specs, s.id = a1.id → s = a1) :=
  ⟨clashState_reachable, reachable_active_in_specs clashState clashState_reachable⟩

/-- C8 (defect of the code): the claim requires that `updateTaskStatus` replaces only
the active member of `specs`; the code breaks it.  `clashState` is reachable (two
creations at one clock reading, with "New Spec" in between, so both specifications
carry the id `Date.now()` returned), its active specification is `searchSpec`, and
`updateTaskStatus(1, 'in-progress')` replaces the other member, `loginSpec`, at
position 0 by the updated `searchSpec`. -/
theorem updateTaskStatus_overwrites_other :
    ∃ st1, Reachable clashState ∧ clashState.activeSpec = some searchSpec ∧
      clashState.specs[0]? = some loginSpec ∧ loginSpec ≠ searchSpec ∧
      updateTaskStatus 1 inProgress clashState = .ok st1 ∧
      st1.specs[0]? = some (updatedSpecOf 1 inProgress searchSpec) ∧
      st1.specs[0]? ≠ some loginSpec := by
  refine ⟨_, clashState_reachable, rfl, rfl, loginSpec_ne_searchSpec, rfl, rfl, ?_⟩
  intro h
  have h1 : updatedSpecOf 1 inProgress searchSpec = loginSpec := Option.some.inj h
  exact absurd (congrArg Spec.title h1) (by decide)

/-- Where the ids are unique the replacement is as intended: for every reachable state
with an active specification whose id is carried by no other member of `specs` (every
member with that id equals the active specification), `updateTaskStatus` replaces only
the active member: `specs` keeps its length and order, the active specification is
stored at some position and is replaced there by the updated one, and every other
member is unchanged. -/
theorem updateTaskStatus_replaces_only_active (st : State) (a : Spec) (taskId : Nat)
    (target : JSString) (hreach : Reachable st) (hactive : st.activeSpec = some a)
    (huniq : ∀ s ∈ st.specs, s.id = a.id → s = a) :
    ∃ st1 a1, updateTaskStatus taskId target st = .ok st1 ∧ st1.activeSpec = some a1 ∧
      st1.specs.length = st.specs.length ∧
      (∃ i : Nat, st.specs[i]? = some a ∧ st1.specs[i]? = some a1) ∧
      (∀ (i : Nat) (s : Spec), st.specs[i]? = some s →
        (s = a → st1.specs[i]? = some a1) ∧ (s ≠ a → st1.specs[i]? = some s)) := by
  have hc := reachable_consistent st hreach
  have hget : ∀ (i : Nat) (s : Spec), st.specs[i]? = some s →
      (st.specs.map fun s => if s.id = a.id then updatedSpecOf taskId target a else s)[i]? =
        some (if s.id = a.id then updatedSpecOf taskId target a else s) := by
    intro i s hs
    simp [List.getElem?_map, hs]
  refine ⟨_, _, updateTaskStatus_active taskId target st a hactive, rfl, by simp, ?_, ?_⟩
  · obtain ⟨i, hi⟩ := List.mem_iff_getElem?.mp (hc.1 a hactive)
    refine ⟨i, hi, ?_⟩
    show (st.specs.map _)[i]? = _
    rw [hget i a hi, if_pos rfl]
  · intro i s hs
    refine ⟨?_, ?_⟩
    · intro hsa
      show (st.specs.map _)[i]? = _
      rw [hget i s hs, if_pos (by rw [hsa])]
    · intro hsa
      have hid : ¬ s.id = a.id :=
        fun hid => hsa (huniq s (List.mem_iff_getElem?.mpr ⟨i, hs⟩) hid)
      show (st.specs.map _)[i]? = _
      rw [hget i s hs, if_neg hid]

theorem twoSpecState_reachable : Reachable twoSpecState :=
  Reachable.generated 1700000000001
    (Reachable.typed searchPrompt (Reachable.deselected loginState_reachable)) rfl

theorem twoSpecState_ids_distinct :
    ∀ s ∈ twoSpecState.specs, s.id = laterSpec.id → s = laterSpec := by
  intro s hs hid
  have hs1 : s = loginSpec ∨ s = laterSpec := by
    simpa [twoSpecState] using hs
  rcases hs1 with h | h
  · rw [h] at hid
    exact absurd hid (by decide)
  · exact h

/-- Instance of the replacement with unique ids: two stored specifications with
different ids, the second one active. -/
theorem updateTaskStatus_replaces_only_active_witness :
    Reachable twoSpecState ∧ twoSpecState.activeSpec = some laterSpec ∧
    (∀ s ∈ twoSpecState.specs, s.id = laterSpec.id → s = laterSpec) ∧
    ∃ st1 a1, updateTaskStatus 1 inProgress twoSpecState = .ok st1 ∧
      st1.activeSpec = some a1 ∧
      st1.specs.length = twoSpecState.specs.length ∧
      (∃ i : Nat, twoSpecState.specs[i]? = some laterSpec ∧ st1.specs[i]? = some a1) ∧
      (∀ (i : Nat) (s : Spec), twoSpecState.specs[i]? = some s →
        (s = laterSpec → st1.specs[i]? = some a1) ∧
        (s ≠ laterSpec → st1.specs[i]? = some s)) :=
  ⟨twoSpecState_reachable, rfl, twoSpecState_ids_distinct,
    updateTaskStatus_replaces_only_active twoSpecState laterSpec 1 inProgress
      twoSpecState_reachable rfl twoSpecState_ids_distinct⟩

/-! ## C9 and C10: the created specification -/

/-- Counterexample to C9: for the prompt made of a space, fifty `a` and one `b`, the
trimmed prompt is longer than 50 code units and the created title is not its first 50
code units: the title starts with the space. -/
theorem title_not_of_trimmed_prompt :
    ∃ st1 newSpec, trim paddedPrompt ≠ [] ∧ 50 < (trim paddedPrompt).length ∧
      createFromPrompt 1700000000000 paddedPrompt initialState = .ok st1 ∧
      st1.activeSpec = some newSpec ∧
      newSpec.title = utf16 " " ++ List.replicate 49 97 ∧
      slice0 (trim paddedPrompt) 50 = List.replicate 50 97 ∧
      newSpec.title ≠ slice0 (trim paddedPrompt) 50 :=
  ⟨_, _, by decide, by decide, rfl, rfl, by decide, by decide, by decide⟩

/-- C9 (amended): for every prompt that is non-empty after trimming, the title of the
created specification is the first 50 code units of the prompt as entered, not
trimmed: `prompt.slice(0, 50)`.  It has 50 code units when the prompt is longer than
50, and it is the prompt itself otherwise. -/
theorem created_title (now : Nat) (promptText : JSString) (st : State)
    (hprompt : trim promptText ≠ []) :
    ∃ st1 newSpec, createFromPrompt now promptText st = .ok st1 ∧
      st1.activeSpec = some newSpec ∧
      newSpec.title = promptText.take 50 ∧
      (50 < promptText.length → newSpec.title.length = 50 ∧
        ∃ rest, rest ≠ [] ∧ promptText = newSpec.title ++ rest) ∧
      (promptText.length ≤ 50 → newSpec.title = promptText) := by
  have h : trim (setPrompt promptText st).prompt ≠ [] := hprompt
  refine ⟨_, _, generateSpec_nonblank now (setPrompt promptText st) h, rfl, rfl, ?_, ?_⟩
  · intro hlen
    refine ⟨?_, promptText.drop 50, ?_, ?_⟩
    · show (promptText.take 50).length = 50
      rw [List.length_take]
      omega
    · intro hnil
      have hl : (promptText.drop 50).length = 0 := by rw [hnil]; rfl
      rw [List.length_drop] at hl
      omega
    · show promptText = promptText.take 50 ++ promptText.drop 50
      exact (List.take_append_drop 50 promptText).symm
  · intro hlen
    show promptText.take 50 = promptText
    exact List.take_of_length_le hlen

/-- Witness for C9 (amended): the prompt `"Build login page"` gives the title
`"Build login page"`. -/
theorem created_title_witness :
    trim loginPrompt ≠ [] ∧
    (∃ st1 newSpec, createFromPrompt 1700000000000 loginPrompt initialState = .ok st1 ∧
      st1.activeSpec = some newSpec ∧
      newSpec.title = loginPrompt.take 50 ∧
      (50 < loginPrompt.length → newSpec.title.length = 50 ∧
        ∃ rest, rest ≠ [] ∧ loginPrompt = newSpec.title ++ rest) ∧
      (loginPrompt.length ≤ 50 → newSpec.title = loginPrompt)) ∧
    loginPrompt.take 50 = utf16 "Build login page" :=
  ⟨by decide, created_title 1700000000000 loginPrompt initialState (by decide), by decide⟩

/-- C10: for every prompt that is non-empty after trimming, the created specification
has status `'in-progress'` and exactly 7 tasks with ids 1, 2, ..., 7 in that order,
each with status `'pending'`; the tasks do not depend on the prompt, and the first one
is "Set up project structure" with description "Initialize repository and configure
build tools". -/
theorem created_status_and_tasks (now : Nat) (promptText : JSString) (st : State)
    (hprompt : trim promptText ≠ []) :
    ∃ st1 newSpec, createFromPrompt now promptText st = .ok st1 ∧
      st1.activeSpec = some newSpec ∧
      newSpec.status = inProgress ∧
      newSpec.tasks.length = 7 ∧
      newSpec.tasks.map Task.id = [1, 2, 3, 4, 5, 6, 7] ∧
      (∀ t ∈ newSpec.tasks, t.status = pending) ∧
      newSpec.tasks = generateTasks [] ∧
      newSpec.tasks[0]? = some
        { id := 1, title := utf16 "Set up project structure", status := utf16 "pending",
          description := utf16 "Initialize repository and configure build tools" } := by
  have h : trim (setPrompt promptText st).prompt ≠ [] := hprompt
  refine ⟨_, _, generateSpec_nonblank now (setPrompt promptText st) h, rfl, rfl, rfl, rfl,
    ?_, rfl, rfl⟩
  intro t ht
  have ht1 : t ∈ generateTasks (setPrompt promptText st).prompt := ht
  simp only [generateTasks, List.mem_cons, List.mem_singleton, List.not_mem_nil, or_false] at ht1
  rcases ht1 with h1 | h1 | h1 | h1 | h1 | h1 | h1 <;> rw [h1] <;> rfl

/-- Witness for C10: the prompt `"Build login page"`. -/
theorem created_status_and_tasks_witness :
    trim loginPrompt ≠ [] ∧
    ∃ st1 newSpec, createFromPrompt 1700000000000 loginPrompt initialState = .ok st1 ∧
      st1.activeSpec = some newSpec ∧
      newSpec.status = inProgress ∧
      newSpec.tasks.length = 7 ∧
      newSpec.tasks.map Task.id = [1, 2, 3, 4, 5, 6, 7] ∧
      (∀ t ∈ newSpec.tasks, t.status = pending) ∧
      newSpec.tasks = generateTasks [] ∧
      newSpec.tasks[0]? = some
        { id := 1, title := utf16 "Set up project structure", status := utf16 "pending",
          description := utf16 "Initialize repository and configure build tools" } :=
  ⟨by decide, created_status_and_tasks 1700000000000 loginPrompt initialState (by decide)⟩

/-! ## C11: repeated task updates -/

theorem updatedSpecOf_id (taskId : Nat) (newStatus : JSString) (a : Spec) :
    (updatedSpecOf taskId newStatus a).id = a.id := rfl

theorem updatedSpecOf_twice (taskId : Nat) (newStatus : JSString) (a : Spec) :
    updatedSpecOf taskId newStatus (updatedSpecOf taskId newStatus a) =
      updatedSpecOf taskId newStatus a := by
  simp only [updatedSpecOf, List.map_map]
  congr 1
  apply List.map_congr_left
  intro t _
  by_cases h : t.id = taskId <;> simp [h]

theorem updatedSpecOf_same_status (taskId : Nat) (newStatus : JSString) (a : Spec)
    (h : ∀ u ∈ a.tasks, u.id = taskId → u.status = newStatus) :
    updatedSpecOf taskId newStatus a = a := by
  have hmap : (a.tasks.map fun task =>
      if task.id = taskId then { task with status := newStatus } else task) = a.tasks := by
    conv_rhs => rw [← List.map_id a.tasks]
    apply List.map_congr_left
    intro u hu
    by_cases hid : u.id = taskId
    · rw [if_pos hid, ← h u hu hid]
      rfl
    · rw [if_neg hid]
      rfl
  unfold updatedSpecOf
  rw [hmap]

theorem map_replace_twice (specs : List Spec) (a b : Spec) (hid : b.id = a.id) :
    ((specs.map fun s => if s.id = a.id then b else s).map
      fun s => if s.id = a.id then b else s) =
      specs.map fun s => if s.id = a.id then b else s := by
  rw [List.map_map]
  apply List.map_congr_left
  intro x _
  by_cases hx : x.id = a.id
  · simp [hx, hid]
  · simp [hx]

theorem updateTaskStatus_twice (taskId : Nat) (newStatus : JSString) (st : State) (a : Spec) :
    updateTaskStatus taskId newStatus
      { st with
        activeSpec := some (updatedSpecOf taskId newStatus a)
        specs := st.specs.map fun s =>
          if s.id = a.id then updatedSpecOf taskId newStatus a else s } =
      .ok { st with
            activeSpec := some (updatedSpecOf taskId newStatus a)
            specs := st.specs.map fun s =>
              if s.id = a.id then updatedSpecOf taskId newStatus a else s } := by
  rw [updateTaskStatus_active taskId newStatus _ (updatedSpecOf taskId newStatus a) rfl]
  simp only [updatedSpecOf_twice, updatedSpecOf_id]
  rw [map_replace_twice st.specs a (updatedSpecOf taskId newStatus a) rfl]

/-- Counterexample to C11.  On the reachable sample state the first task is pending;
`updateTaskStatus(1, 'completed')`, whose target differs from the task's status, takes
it to `'completed'`, which is not one stage after `'pending'`.  On the reachable state
with two specifications of one id the first task of the active one is already
pending, and `updateTaskStatus(1, 'pending')` is not a no-op: `specs` changes. -/
theorem updateTaskStatus_not_one_stage :
    ∃ st1 a1 st2,
      Reachable loginState ∧ loginState.activeSpec = some loginSpec ∧
      loginSpec.tasks[0]? = some firstTask ∧ firstTask.id = 1 ∧
      firstTask.status = pending ∧ firstTask.status ≠ completed ∧
      updateTaskStatus 1 completed loginState = .ok st1 ∧ st1.activeSpec = some a1 ∧
      a1.tasks[0]? = some { firstTask with status := completed } ∧
      ¬ isSuccessor pending completed ∧
      Reachable clashState ∧ clashState.activeSpec = some searchSpec ∧
      searchSpec.tasks[0]? = some firstTask ∧
      updateTaskStatus 1 pending clashState = .ok st2 ∧
      st2.specs = [searchSpec, searchSpec] ∧ st2.specs ≠ clashState.specs := by
  refine ⟨_, _, _, loginState_reachable, rfl, rfl, rfl, rfl, by decide, rfl, rfl, rfl,
    by decide, clashState_reachable, rfl, rfl, rfl, rfl, ?_⟩
  intro h
  have h1 : searchSpec = loginSpec := by
    have h2 := List.head_eq_of_cons_eq h
    exact h2
  exact loginSpec_ne_searchSpec h1.symm

/-- C11 (amended): `updateTaskStatus` is idempotent for every target status.  For every
reachable state with an active specification, every task of it and every target
status `s`: the call completes normally, applying it again to the result gives the
same result, and the task reappears at its position with status `s`, whatever its
status was (not necessarily one stage further).  If the task's status is already `s`,
`prompt` and `activeSpec` are unchanged and `specs` is the old `specs` with every
member that carries the active id replaced by the active specification, so the call
is a no-op whenever every member of `specs` with the active id equals the active
specification. -/
theorem updateTaskStatus_idempotent (st : State) (a : Spec) (t : Task) (taskId : Nat)
    (s : JSString) (hreach : Reachable st) (hactive : st.activeSpec = some a)
    (ht : t ∈ a.tasks) (hid : t.id = taskId) :
    ∃ st1 a1, updateTaskStatus taskId s st = .ok st1 ∧
      updateTaskStatus taskId s st1 = .ok st1 ∧
      st1.activeSpec = some a1 ∧
      (∃ i : Nat, a.tasks[i]? = some t ∧ a1.tasks[i]? = some { t with status := s }) ∧
      (t.status = s →
        st1.prompt = st.prompt ∧ st1.activeSpec = st.activeSpec ∧
        st1.specs = st.specs.map (fun x => if x.id = a.id then a else x) ∧
        ((∀ x ∈ st.specs, x.id = a.id → x = a) → st1 = st)) := by
  have hc := reachable_consistent st hreach
  refine ⟨_, _, updateTaskStatus_active taskId s st a hactive,
    updateTaskStatus_twice taskId s st a, rfl, ?_, ?_⟩
  · obtain ⟨i, hi⟩ := List.mem_iff_getElem?.mp ht
    refine ⟨i, hi, ?_⟩
    show (a.tasks.map _)[i]? = _
    rw [getElem?_map_update a.tasks taskId s i t hi, if_pos hid]
  · intro hst
    have hupd : updatedSpecOf taskId s a = a := by
      apply updatedSpecOf_same_status
      intro u hu huid
      have hut : u = t :=
        consistent_task_ids_inj st hc a hactive u t hu ht (huid.trans hid.symm)
      rw [hut]
      exact hst
    refine ⟨rfl, ?_, ?_, ?_⟩
    · show some (updatedSpecOf taskId s a) = st.activeSpec
      rw [hupd, hactive]
    · show st.specs.map _ = st.specs.map _
      rw [hupd]
    · intro huniq
      rw [hupd, map_replace_same st.specs a huniq, ← hactive]

/-- Witness for C11 (amended): "Start" requested on the first task of the state with
two specifications of different ids. -/
theorem updateTaskStatus_idempotent_witness :
    Reachable twoSpecState ∧ twoSpecState.activeSpec = some laterSpec ∧
    firstTask ∈ laterSpec.tasks ∧ firstTask.id = 1 ∧
    ∃ st1 a1, updateTaskStatus 1 inProgress twoSpecState = .ok st1 ∧
      updateTaskStatus 1 inProgress st1 = .ok st1 ∧
      st1.activeSpec = some a1 ∧
      (∃ i : Nat, laterSpec.tasks[i]? = some firstTask ∧
        a1.tasks[i]? = some { firstTask with status := inProgress }) ∧
      (firstTask.status = inProgress →
        st1.prompt = twoSpecState.prompt ∧ st1.activeSpec = twoSpecState.activeSpec ∧
        st1.specs = twoSpecState.specs.map
          (fun x => if x.id = laterSpec.id then laterSpec else x) ∧
        ((∀ x ∈ twoSpecState.specs, x.id = laterSpec.id → x = laterSpec) →
          st1 = twoSpecState)) :=
  ⟨twoSpecState_reachable, rfl, List.Mem.head _, rfl,
    updateTaskStatus_idempotent twoSpecState laterSpec firstTask 1 inProgress
      twoSpecState_reachable rfl (List.Mem.head _) rfl⟩

end SpecFlow
